import Mathlib

/-!
A shallow embedding of `src/libsrtp/crypto/cipher/cipher.c` (the cipher
dispatch layer, the known-answer and randomized self-test engines, and the
benchmark utility), together with theorems settling the specification claims.

Modelling conventions:
* C enumerations become Lean inductives carrying the source's names.
* The singly-linked `srtp_cipher_test_case_t` list becomes `List TestCase`.
* Machine integers are `Nat`; the one place where 64-bit overflow matters
  (the benchmark's throughput product) reduces explicitly `% 2^64`.
* The concrete cipher implementation behind the function-pointer table is an
  external collaborator; the engines observe it only through the status each
  driven call returns, the value each call stores through its length
  out-parameter, and the outcome of each byte-comparison loop.  Those
  observations are supplied by an `Oracle` (functions indexed by a running
  call counter), so theorems quantified over the oracle hold for every
  possible behaviour of the underlying cipher.
* Every externally visible action of the engines (contract calls with their
  arguments and statuses, scratch-buffer copy-loop writes, test-only random
  fills) is recorded in an event trace, so claims about which operations are
  invoked, with which arguments, and how allocations pair with deallocations
  are statements about the trace.
* The straight-line bodies of the test loops and the benchmark loop are
  written as instruction sequences (`Step` lists, one instruction per C
  statement or guarded block, annotated with the source lines) executed by a
  single interpreter `runSteps` that implements the uniform C idiom
  `if (status) { srtp_cipher_dealloc(c); return status; }`.
-/

namespace LibSrtpCipher

/-- Status taxonomy (`srtp_err_status_t` from err.h), restricted to the
constructors this translation unit mentions plus generic failures an
implementation may return. -/
inductive srtp_err_status_t where
  | srtp_err_status_ok
  | srtp_err_status_fail
  | srtp_err_status_bad_param
  | srtp_err_status_alloc_fail
  | srtp_err_status_dealloc_fail
  | srtp_err_status_init_fail
  | srtp_err_status_cipher_fail
  | srtp_err_status_algo_fail
  | srtp_err_status_no_such_op
  | srtp_err_status_cant_check
  deriving DecidableEq, Repr

open srtp_err_status_t

/-- `srtp_cipher_direction_t` from crypto_types.h. -/
inductive srtp_cipher_direction_t where
  | srtp_direction_encrypt
  | srtp_direction_decrypt
  | srtp_direction_any
  deriving DecidableEq, Repr

open srtp_cipher_direction_t

/-- Algorithm identities (`srtp_cipher_type_id_t` values referenced here). -/
inductive srtp_cipher_type_id_t where
  | SRTP_NULL_CIPHER
  | SRTP_AES_ICM_128
  | SRTP_AES_ICM_192
  | SRTP_AES_ICM_256
  | SRTP_AES_GCM_128
  | SRTP_AES_GCM_256
  deriving DecidableEq, Repr

open srtp_cipher_type_id_t

/-- The test `c->algorithm == SRTP_AES_GCM_128 || c->algorithm == SRTP_AES_GCM_256`
that gates every AEAD-only step in the two test engines
(cipher.c lines 280-281, 308-309, 384-385, 509-510, 533-534, 563-564). -/
def isGcm (a : srtp_cipher_type_id_t) : Bool :=
  a == SRTP_AES_GCM_128 || a == SRTP_AES_GCM_256

/-- `srtp_cipher_test_case_t` (cipher.h): one known-answer fixture.  The
`next_test_case` link is replaced by organizing fixtures as `List TestCase`. -/
structure TestCase where
  key_length_octets : Nat
  key : List Nat
  idx : List Nat
  plaintext_length_octets : Nat
  plaintext : List Nat
  ciphertext_length_octets : Nat
  ciphertext : List Nat
  aad_length_octets : Nat
  aad : List Nat
  tag_length_octets : Nat
  deriving DecidableEq, Repr

/-! ## Dispatch layer (cipher.c lines 64-166)

The function-pointer table `srtp_cipher_type_t` is modelled with the optional
operations as `Option`-wrapped functions; a null `type` or `state` pointer in
`srtp_cipher_t` is modelled by `Option`.  Implementation operations return only
their status here: the dispatch layer forwards them unexamined. -/

/-- The contract operations of `srtp_cipher_type_t` relevant to dispatch,
over an opaque implementation state `σ`.  `encrypt`/`decrypt` receive the
(possibly null) state pointer exactly as the C forwards it. -/
structure srtp_cipher_type_t (σ : Type) where
  dealloc : σ → srtp_err_status_t
  init : σ → List Nat → srtp_err_status_t
  set_iv : σ → List Nat → srtp_cipher_direction_t → srtp_err_status_t
  encrypt : Option σ → List Nat → Nat → srtp_err_status_t
  decrypt : Option σ → List Nat → Nat → srtp_err_status_t
  get_tag : Option (σ → List Nat → Nat → srtp_err_status_t)
  set_aad : Option (σ → List Nat → Nat → srtp_err_status_t)

/-- `srtp_cipher_t`: an allocated cipher instance.  `type` and `state` are
pointers in C and hence may be null. -/
structure srtp_cipher_t (σ : Type) where
  type : Option (srtp_cipher_type_t σ)
  state : Option σ
  algorithm : srtp_cipher_type_id_t
  key_len : Nat

/-- Result of one dispatch call: either a returned status, or a crash from
dereferencing a null pointer (C undefined behaviour). -/
inductive CResult where
  | crash
  | ret (st : srtp_err_status_t)
  deriving DecidableEq, Repr

/-- cipher.c lines 140-152: `srtp_cipher_get_tag`. -/
def srtp_cipher_get_tag {σ : Type} (c : Option (srtp_cipher_t σ))
    (buffer : List Nat) (tag_len : Nat) : CResult :=
  match c with
  | none => CResult.ret srtp_err_status_bad_param
  | some ci =>
    match ci.type with
    | none => CResult.ret srtp_err_status_bad_param
    | some t =>
      match ci.state with
      | none => CResult.ret srtp_err_status_bad_param
      | some s =>
        match t.get_tag with
        | none => CResult.ret srtp_err_status_no_such_op
        | some f => CResult.ret (f s buffer tag_len)

/-- cipher.c lines 154-166: `srtp_cipher_set_aad`. -/
def srtp_cipher_set_aad {σ : Type} (c : Option (srtp_cipher_t σ))
    (aad : List Nat) (aad_len : Nat) : CResult :=
  match c with
  | none => CResult.ret srtp_err_status_bad_param
  | some ci =>
    match ci.type with
    | none => CResult.ret srtp_err_status_bad_param
    | some t =>
      match ci.state with
      | none => CResult.ret srtp_err_status_bad_param
      | some s =>
        match t.set_aad with
        | none => CResult.ret srtp_err_status_no_such_op
        | some f => CResult.ret (f s aad aad_len)

/-- cipher.c lines 114-125: `srtp_cipher_encrypt` (checks `!c || !c->type ||
!c->state` and forwards otherwise). -/
def srtp_cipher_encrypt {σ : Type} (c : Option (srtp_cipher_t σ))
    (src : List Nat) (src_len : Nat) : CResult :=
  match c with
  | none => CResult.ret srtp_err_status_bad_param
  | some ci =>
    match ci.type with
    | none => CResult.ret srtp_err_status_bad_param
    | some t =>
      match ci.state with
      | none => CResult.ret srtp_err_status_bad_param
      | some s => CResult.ret (t.encrypt (some s) src src_len)

/-- cipher.c lines 102-112: `srtp_cipher_output`.  The C code zeroizes the
caller's buffer and then dereferences `c->type` with **no** null checks, so a
null instance or a null contract pointer is a crash, not `bad_param`; the
(possibly null) `c->state` is forwarded to the implementation unchecked. -/
def srtp_cipher_output {σ : Type} (c : Option (srtp_cipher_t σ))
    (buffer : List Nat) (num_octets_to_output : Nat) : CResult :=
  match c with
  | none => CResult.crash
  | some ci =>
    match ci.type with
    | none => CResult.crash
    | some t =>
      CResult.ret (t.encrypt ci.state (List.replicate buffer.length 0)
        num_octets_to_output)

/-! ## Constants (cipher.c lines 204-206, crypto_types.h) -/

def SELF_TEST_BUF_OCTETS : Nat := 128
def NUM_RAND_TESTS : Nat := 128
def MAX_KEY_LEN : Nat := 64
def SRTP_MAX_TAG_LEN : Nat := 16

/-! ## Oracle and event trace for the test engines and benchmark -/

/-- The IV argument of a `set_iv` call: either a byte string (the test
vector's `idx` field — the engines never pass anything else) or the
benchmark's per-trial nonce with low word `i`. -/
inductive IvArg where
  | bytes (l : List Nat)
  | benchNonce (i : Nat)
  deriving DecidableEq, Repr

/-- Trace events: one per dispatch-layer contract call (with its status), one
per scratch-buffer copy-loop write (with the index written), and one per
test-only random fill. -/
inductive Ev where
  | alloc (st : srtp_err_status_t)
  | dealloc (st : srtp_err_status_t)
  | init (st : srtp_err_status_t)
  | set_iv (iv : IvArg) (dir : srtp_cipher_direction_t) (st : srtp_err_status_t)
  | set_aad (st : srtp_err_status_t)
  | encrypt (st : srtp_err_status_t)
  | decrypt (st : srtp_err_status_t)
  | get_tag (st : srtp_err_status_t)
  | copyWrite (idx : Nat)
  | fillBuf (len : Nat)
  | fillKey (len : Nat)
  | fillIv (bytes : List Nat)
  deriving DecidableEq, Repr

/-- Everything the engines observe of their environment: the algorithm tag the
concrete `alloc` stamps on instances, whether `ct->alloc` and the optional
`set_aad`/`get_tag` pointers of the driven `srtp_cipher_type_t` are non-null,
the status of the n-th dispatched contract call, the value the n-th call
stores through its length out-parameter, the outcome of the m-th
byte-comparison loop, and the k-th `rand()` value. -/
structure Oracle where
  alg : srtp_cipher_type_id_t
  hasAlloc : Bool
  hasSetAad : Bool
  hasGetTag : Bool
  resp : Nat → srtp_err_status_t
  outLen : Nat → Nat
  cmpOk : Nat → Bool
  rand : Nat → Nat

/-- Engine-threaded counters: `n` dispatched contract calls, `m` comparison
loops, `r` consumed `rand()` values. -/
structure St where
  n : Nat
  m : Nat
  r : Nat
  deriving DecidableEq, Repr

/-- cipher.c lines 179-191, `srtp_cipher_rand_for_tests(dest, len)`: consumes
`len` values of `rand()`, storing `val & 0xff` each. -/
def randByte (o : Oracle) (k : Nat) : Nat := o.rand k % 256

/-- cipher.c lines 197-202, `srtp_cipher_rand_u32_for_tests`: four random
bytes assembled into a 32-bit value (little-endian byte order). -/
def srtp_cipher_rand_u32_for_tests (o : Oracle) (r : Nat) : Nat :=
  randByte o r + 256 * randByte o (r + 1) + 65536 * randByte o (r + 2) +
    16777216 * randByte o (r + 3)

/-- The 64 random bytes `srtp_cipher_rand_for_tests(iv, MAX_KEY_LEN)` writes
into the trial's `iv` buffer (cipher.c line 493), starting at rand index `r`. -/
def randIvBytes (o : Oracle) (r : Nat) : List Nat :=
  (List.range MAX_KEY_LEN).map fun i => randByte o (r + i)

/-- The writes of one scratch-buffer copy loop of `len` iterations
(cipher.c lines 265-267, 369-371, 481-483). -/
def copyEvs (len : Nat) : List Ev := (List.range len).map Ev.copyWrite

/-- `srtp_cipher_type_alloc(ct, &c, key_len, tlen)` (cipher.c lines 64-73) as
driven by the engines: `bad_param` without a contract call if `ct->alloc` is
null, else the implementation's status. -/
def callAlloc (o : Oracle) (s : St) : srtp_err_status_t × St × List Ev :=
  let st := if o.hasAlloc then o.resp s.n else srtp_err_status_bad_param
  (st, ⟨s.n + 1, s.m, s.r⟩, [Ev.alloc st])

/-- `srtp_cipher_dealloc(c)` on the engine's (valid) instance: forwards to the
implementation (cipher.c lines 75-81). -/
def callDealloc (o : Oracle) (s : St) : srtp_err_status_t × St × List Ev :=
  (o.resp s.n, ⟨s.n + 1, s.m, s.r⟩, [Ev.dealloc (o.resp s.n)])

/-! ## The straight-line instruction set of the loop bodies -/

/-- One instruction of a loop body.  Call instructions drive the dispatch
layer on the engine's valid instance; `guardCondS`/`guardLenNeS` are the
C `if (...) { dealloc; return ...; }` guards; `cmpS` is a byte-comparison
loop; `emitS` records copy-loop writes; `randAdvS` consumes `k` values of the
test-only random source while recording the fill events `evs`. -/
inductive Step where
  | callInitS
  | callSetIvS (iv : IvArg) (dir : srtp_cipher_direction_t)
  | callSetAadS
  | callEncryptS
  | callDecryptS
  | callGetTagAddS
  | callGetTagSetS
  | guardCondS (cond : Bool) (ret : srtp_err_status_t)
  | guardLenNeS (target : Nat) (ret : srtp_err_status_t)
  | cmpS (ret : srtp_err_status_t)
  | emitS (evs : List Ev)
  | randAdvS (k : Nat) (evs : List Ev)
  deriving Repr

/-- Result of running a loop body: `res = none` means the body ran to
completion, `res = some st` means it returned early with status `st`;
`len`/`tagLen` are the values of the C locals `len` (alias `encrypted_len` /
`decrypted_len`) and `tag_len`. -/
structure RunRes where
  res : Option srtp_err_status_t
  s : St
  len : Nat
  tagLen : Nat
  t : List Ev
  deriving Repr

/-- Early return with status `ret`.  In the test engines (`dFail = true`) the
C idiom first calls `srtp_cipher_dealloc(c)`, discarding its status; in the
benchmark (`dFail = false`) the cipher instance is not the loop's to free. -/
def failRun (o : Oracle) (dFail : Bool) (ret : srtp_err_status_t) (s : St)
    (len tagLen : Nat) : RunRes :=
  if dFail then
    ⟨some ret, ⟨s.n + 1, s.m, s.r⟩, len, tagLen, [Ev.dealloc (o.resp s.n)]⟩
  else ⟨some ret, s, len, tagLen, []⟩

/-- Prepend events to a run's trace. -/
def withEvs (evs : List Ev) (r : RunRes) : RunRes :=
  ⟨r.res, r.s, r.len, r.tagLen, evs ++ r.t⟩

/-- Effect of executing one instruction: `st = some ret` requests the early
return `return ret` (after the engines' dealloc), `st = none` continues;
`evs` are the events the instruction itself records. -/
structure StepOut where
  st : Option srtp_err_status_t
  s : St
  len : Nat
  tagLen : Nat
  evs : List Ev
  deriving Repr

/-- Execute one instruction.  Each call instruction takes its status from the
oracle (`set_aad`/`get_tag` return `no_such_op` through the dispatch layer
when the contract lacks the operation) and records its event. -/
def execStep (o : Oracle) : Step → St → Nat → Nat → StepOut
  | Step.callInitS, s, len, tagLen =>
    let st := o.resp s.n
    ⟨if st = srtp_err_status_ok then none else some st,
      ⟨s.n + 1, s.m, s.r⟩, len, tagLen, [Ev.init st]⟩
  | Step.callSetIvS iv dir, s, len, tagLen =>
    let st := o.resp s.n
    ⟨if st = srtp_err_status_ok then none else some st,
      ⟨s.n + 1, s.m, s.r⟩, len, tagLen, [Ev.set_iv iv dir st]⟩
  | Step.callSetAadS, s, len, tagLen =>
    let st := if o.hasSetAad then o.resp s.n else srtp_err_status_no_such_op
    ⟨if st = srtp_err_status_ok then none else some st,
      ⟨s.n + 1, s.m, s.r⟩, len, tagLen, [Ev.set_aad st]⟩
  | Step.callEncryptS, s, len, tagLen =>
    let st := o.resp s.n
    ⟨if st = srtp_err_status_ok then none else some st, ⟨s.n + 1, s.m, s.r⟩,
      if st = srtp_err_status_ok then o.outLen s.n else len, tagLen,
      [Ev.encrypt st]⟩
  | Step.callDecryptS, s, len, tagLen =>
    let st := o.resp s.n
    ⟨if st = srtp_err_status_ok then none else some st, ⟨s.n + 1, s.m, s.r⟩,
      if st = srtp_err_status_ok then o.outLen s.n else len, tagLen,
      [Ev.decrypt st]⟩
  | Step.callGetTagAddS, s, len, tagLen =>
    let st := if o.hasGetTag then o.resp s.n else srtp_err_status_no_such_op
    ⟨if st = srtp_err_status_ok then none else some st, ⟨s.n + 1, s.m, s.r⟩,
      if st = srtp_err_status_ok then len + o.outLen s.n else len, tagLen,
      [Ev.get_tag st]⟩
  | Step.callGetTagSetS, s, len, tagLen =>
    let st := if o.hasGetTag then o.resp s.n else srtp_err_status_no_such_op
    ⟨if st = srtp_err_status_ok then none else some st, ⟨s.n + 1, s.m, s.r⟩,
      len, if st = srtp_err_status_ok then o.outLen s.n else tagLen,
      [Ev.get_tag st]⟩
  | Step.guardCondS cond ret, s, len, tagLen =>
    ⟨if cond then some ret else none, s, len, tagLen, []⟩
  | Step.guardLenNeS target ret, s, len, tagLen =>
    ⟨if len ≠ target then some ret else none, s, len, tagLen, []⟩
  | Step.cmpS ret, s, len, tagLen =>
    ⟨if o.cmpOk s.m then none else some ret, ⟨s.n, s.m + 1, s.r⟩, len, tagLen,
      []⟩
  | Step.emitS evs, s, len, tagLen => ⟨none, s, len, tagLen, evs⟩
  | Step.randAdvS k evs, s, len, tagLen =>
    ⟨none, ⟨s.n, s.m, s.r + k⟩, len, tagLen, evs⟩

/-- The loop-body interpreter: execute instructions in order; on the first
early-return request, perform `failRun` (the engines' dealloc-and-return
idiom). -/
def runSteps (o : Oracle) (dFail : Bool) :
    List Step → St → Nat → Nat → RunRes
  | [], s, len, tagLen => ⟨none, s, len, tagLen, []⟩
  | i :: rest, s, len, tagLen =>
    let x := execStep o i s len tagLen
    match x.st with
    | some ret => withEvs x.evs (failRun o dFail ret x.s x.len x.tagLen)
    | none => withEvs x.evs (runSteps o dFail rest x.s x.len x.tagLen)

/-! ## Known-answer test engine (cipher.c lines 240-451) -/

/-- The body of one known-answer case after the allocation (cipher.c lines
253-437), one instruction per statement or guarded block. -/
def katProg (o : Oracle) (tc : TestCase) : List Step :=
  [Step.callInitS,                                               -- lines 253-258
   Step.guardCondS (SELF_TEST_BUF_OCTETS < tc.ciphertext_length_octets)
     srtp_err_status_bad_param,                                  -- lines 260-264
   Step.emitS (copyEvs tc.plaintext_length_octets),              -- lines 265-267
   Step.callSetIvS (IvArg.bytes tc.idx) srtp_direction_encrypt]  -- lines 273-278
  ++ (if isGcm o.alg then [Step.callSetAadS] else [])            -- lines 280-297
  ++ [Step.callEncryptS]                                         -- lines 299-306
  ++ (if isGcm o.alg then [Step.callGetTagAddS] else [])         -- lines 308-319
  ++ [Step.guardLenNeS tc.ciphertext_length_octets
        srtp_err_status_algo_fail,                               -- lines 325-329
      Step.cmpS srtp_err_status_algo_fail,                       -- lines 330-350
      Step.callInitS,                                            -- lines 356-362
      Step.guardCondS (SELF_TEST_BUF_OCTETS < tc.ciphertext_length_octets)
        srtp_err_status_bad_param,                               -- lines 364-368
      Step.emitS (copyEvs tc.ciphertext_length_octets),          -- lines 369-371
      Step.callSetIvS (IvArg.bytes tc.idx) srtp_direction_decrypt] -- lines 377-382
  ++ (if isGcm o.alg then [Step.callSetAadS] else [])            -- lines 384-398
  ++ [Step.callDecryptS,                                         -- lines 400-407
      Step.guardLenNeS tc.plaintext_length_octets
        srtp_err_status_algo_fail,                               -- lines 413-417
      Step.cmpS srtp_err_status_algo_fail]                       -- lines 418-437

/-- One iteration of the known-answer loop over `test_case` (cipher.c lines
240-450): allocate, run the case body, deallocate.  Result `some st` means
`srtp_cipher_type_test` returns `st` here; `none` means this case passed and
the loop advances. -/
def katCase (o : Oracle) (tc : TestCase) (s0 : St) :
    Option srtp_err_status_t × St × List Ev :=
  -- lines 241-246: allocate cipher; on failure return without dealloc
  let a := callAlloc o s0
  if a.1 ≠ srtp_err_status_ok then (some a.1, a.2.1, a.2.2) else
  let r := runSteps o true (katProg o tc) a.2.1 SELF_TEST_BUF_OCTETS 0
  match r.res with
  | some st => (some st, r.s, a.2.2 ++ r.t)
  | none =>
    -- lines 439-443: deallocate; a failing dealloc status is returned
    let dd := callDealloc o r.s
    (if dd.1 = srtp_err_status_ok then none else some dd.1, dd.2.1,
      a.2.2 ++ r.t ++ dd.2.2)

/-- The `while (test_case != NULL)` loop of cipher.c lines 240-451. -/
def katLoop (o : Oracle) : List TestCase → St →
    Option srtp_err_status_t × St × List Ev
  | [], s => (none, s, [])
  | tc :: rest, s =>
    match katCase o tc s with
    | (some st, s1, t) => (some st, s1, t)
    | (none, s1, t) =>
      let k := katLoop o rest s1
      (k.1, k.2.1, t ++ k.2.2)

/-! ## Randomized round-trip engine (cipher.c lines 453-614) -/

/-- The body of one randomized trial (cipher.c lines 463-607).  `tc` is the
*first* test case (line 456) and `r0` the value of the rand counter at trial
entry; the drawn plaintext length is `rand_u32() % (SELF_TEST_BUF_OCTETS - 64)`
(lines 471-472). -/
def randProg (o : Oracle) (tc : TestCase) (r0 : Nat) : List Step :=
  let plaintext_len := srtp_cipher_rand_u32_for_tests o r0 %
    (SELF_TEST_BUF_OCTETS - 64)
  [Step.randAdvS 4 [],                                           -- lines 470-474
   Step.randAdvS plaintext_len [Ev.fillBuf plaintext_len],       -- line 475
   Step.emitS (copyEvs plaintext_len),                           -- lines 480-483
   Step.guardCondS (MAX_KEY_LEN < tc.key_length_octets)
     srtp_err_status_cant_check,                                 -- lines 485-489
   Step.randAdvS tc.key_length_octets
     [Ev.fillKey tc.key_length_octets],                          -- line 490
   Step.randAdvS MAX_KEY_LEN
     [Ev.fillIv (randIvBytes o (r0 + 4 + plaintext_len +
        tc.key_length_octets))],                                 -- line 493
   Step.callInitS,                                               -- lines 495-500
   -- lines 502-507: the IV is set from the test case's idx field, encrypt
   -- direction; the freshly drawn random iv is never passed to set_iv
   Step.callSetIvS (IvArg.bytes tc.idx) srtp_direction_encrypt]
  ++ (if isGcm o.alg then [Step.callSetAadS] else [])            -- lines 509-523
  ++ [Step.callEncryptS]                                         -- lines 525-532
  ++ (if isGcm o.alg then [Step.callGetTagAddS] else [])         -- lines 533-544
  ++ [Step.callInitS,                                            -- lines 548-556
      -- lines 557-562: the IV is again the test case's idx field
      Step.callSetIvS (IvArg.bytes tc.idx) srtp_direction_decrypt]
  ++ (if isGcm o.alg then [Step.callSetAadS] else [])            -- lines 563-577
  ++ [Step.callDecryptS,                                         -- lines 578-584
      Step.guardLenNeS plaintext_len srtp_err_status_algo_fail,  -- lines 589-593
      Step.cmpS srtp_err_status_algo_fail]                       -- lines 594-606

/-- One trial of the randomized invertibility loop (cipher.c lines 463-607).
The trial performs no allocation of its own: the instance was allocated once
before the loop. -/
def randTrial (o : Oracle) (tc : TestCase) (s0 : St) :
    Option srtp_err_status_t × St × List Ev :=
  let r := runSteps o true (randProg o tc s0.r) s0 SELF_TEST_BUF_OCTETS 0
  (r.res, r.s, r.t)

/-- The `for (j = 0; j < NUM_RAND_TESTS; j++)` loop, by remaining trials. -/
def randTrials (o : Oracle) (tc : TestCase) : Nat → St →
    Option srtp_err_status_t × St × List Ev
  | 0, s => (none, s, [])
  | j + 1, s =>
    match randTrial o tc s with
    | (some st, s1, t) => (some st, s1, t)
    | (none, s1, t) =>
      let k := randTrials o tc j s1
      (k.1, k.2.1, t ++ k.2.2)

/-- The whole random invertibility pass (cipher.c lines 453-614): allocate one
instance from the first test case's parameters, run `NUM_RAND_TESTS` trials,
deallocate. -/
def randPass (o : Oracle) (tc : TestCase) (s0 : St) :
    srtp_err_status_t × St × List Ev :=
  -- lines 455-461: allocate cipher using the first test case's parameters
  let a := callAlloc o s0
  if a.1 ≠ srtp_err_status_ok then (a.1, a.2.1, a.2.2) else
  match randTrials o tc NUM_RAND_TESTS a.2.1 with
  | (some st, s1, t) => (st, s1, a.2.2 ++ t)
  | (none, s1, t) =>
    -- lines 609-612: final dealloc; its failing status is returned
    let dd := callDealloc o s1
    (if dd.1 = srtp_err_status_ok then srtp_err_status_ok else dd.1, dd.2.1,
      a.2.2 ++ t ++ dd.2.2)

/-- `srtp_cipher_type_test(ct, test_data)` (cipher.c lines 212-615): the
empty-list guard (lines 232-234), the known-answer pass over every test case,
then the random invertibility pass using the first test case's parameters. -/
def srtp_cipher_type_test (o : Oracle) :
    List TestCase → srtp_err_status_t × St × List Ev
  | [] => (srtp_err_status_cant_check, ⟨0, 0, 0⟩, [])
  | tc :: rest =>
    match katLoop o (tc :: rest) ⟨0, 0, 0⟩ with
    | (some st, s1, t) => (st, s1, t)
    | (none, s1, t) =>
      let rp := randPass o tc s1
      (rp.1, rp.2.1, t ++ rp.2.2)

/-- The capability descriptor, as a pair of its observable contract behaviour
and its `test_data` list (the `srtp_cipher_type_t` fields used by
`srtp_cipher_type_self_test`). -/
structure Descriptor where
  oracle : Oracle
  test_data : List TestCase

/-- `srtp_cipher_type_self_test(ct)` (cipher.c lines 621-624). -/
def srtp_cipher_type_self_test (d : Descriptor) :
    srtp_err_status_t × St × List Ev :=
  srtp_cipher_type_test d.oracle d.test_data

/-! ## Benchmark utility (cipher.c lines 636-697) -/

/-- The body of one benchmark trial (cipher.c lines 655-686), with trial
index `i` (the low word of the nonce).  The AEAD steps are gated on the
*presence* of the contract's optional operations, not on the algorithm
identity. -/
def benchProg (o : Oracle) (i : Nat) : List Step :=
  [Step.callSetIvS (IvArg.benchNonce i) srtp_direction_encrypt]  -- lines 656-661
  ++ (if o.hasSetAad then [Step.callSetAadS] else [])            -- lines 663-669
  ++ [Step.callEncryptS]                                         -- lines 671-676
  ++ (if o.hasGetTag then [Step.callGetTagSetS] else [])         -- lines 678-685

/-- One benchmark trial.  Returns whether it succeeded, the updated `len` and
`tag_len` locals (both live across trials in the C code), the state, and the
trace.  On failure, the benchmark frees the heap buffer (not modelled as a
cipher event) and returns 0, so no dealloc event is recorded. -/
def benchTrial (o : Oracle) (i len tagLen : Nat) (s0 : St) :
    Bool × Nat × Nat × St × List Ev :=
  let r := runSteps o false (benchProg o i) s0 len tagLen
  (r.res = none, r.len, r.tagLen, r.s, r.t)

/-- The benchmark's trial loop, by remaining trials (`i` counts up). -/
def benchLoop (o : Oracle) : Nat → Nat → Nat → Nat → St →
    Bool × St × List Ev
  | 0, _, _, _, s => (true, s, [])
  | j + 1, i, len, tagLen, s =>
    match benchTrial o i len tagLen s with
    | (false, _, _, s1, t) => (false, s1, t)
    | (true, len1, tagLen1, s1, t) =>
      let k := benchLoop o j (i + 1) len1 tagLen1 s1
      (k.1, k.2.1, t ++ k.2.2)

/-- `srtp_cipher_bits_per_second(c, octets_in_buffer, num_trials)` (cipher.c
lines 636-697).  `allocOk` is whether `srtp_crypto_alloc` succeeded (line
648), `timer` the elapsed clock ticks measured at line 687, `cps` the host's
`CLOCKS_PER_SEC`.  The throughput product is computed in `uint64_t`, hence
reduced `% 2^64` at each multiplication.  Returns the throughput value
together with the trace. -/
def srtp_cipher_bits_per_second (o : Oracle)
    (octets_in_buffer num_trials : Nat) (allocOk : Bool) (timer cps : Nat) :
    Nat × St × List Ev :=
  -- lines 648-651: scratch allocation failure returns 0
  if allocOk = false then (0, ⟨0, 0, 0⟩, []) else
  match benchLoop o num_trials 0 octets_in_buffer SRTP_MAX_TAG_LEN ⟨0, 0, 0⟩ with
  | (false, s, t) => (0, s, t)    -- any driven call failed: return 0
  | (true, s, t) =>
    -- lines 691-694: unmeasurably small elapsed time returns 0
    if timer = 0 then (0, s, t)
    -- line 696: CLOCKS_PER_SEC * num_trials * 8 * octets_in_buffer / timer
    else ((cps % 2 ^ 64 * num_trials % 2 ^ 64 * 8 % 2 ^ 64 *
      octets_in_buffer % 2 ^ 64) / timer, s, t)

/-! ## Trace predicates -/

/-- Is this event a successful allocation? -/
def isAllocOk (e : Ev) : Bool :=
  match e with
  | Ev.alloc srtp_err_status_ok => true
  | _ => false

/-- Is this event a deallocation call (whatever its status)? -/
def isDealloc (e : Ev) : Bool :=
  match e with
  | Ev.dealloc _ => true
  | _ => false

/-- Number of successful allocations in a trace. -/
def allocOkCount (t : List Ev) : Nat := t.countP isAllocOk

/-- Number of deallocation calls in a trace. -/
def deallocCount (t : List Ev) : Nat := t.countP isDealloc

/-- Is this event neither a `set_aad` nor a `get_tag` call? -/
def noAadTagEv (e : Ev) : Bool :=
  match e with
  | Ev.set_aad _ => false
  | Ev.get_tag _ => false
  | _ => true

/-- Is this event a scratch-buffer copy-loop write? -/
def isCopyWrite (e : Ev) : Bool :=
  match e with
  | Ev.copyWrite _ => true
  | _ => false

/-- Is this event a random fill of the 64-octet key buffer? -/
def isFillKey (e : Ev) : Bool :=
  match e with
  | Ev.fillKey _ => true
  | _ => false

/-- Invariant every engine event satisfies in every run: AEAD-only calls
occur only under a GCM algorithm identity, and every drawn random plaintext
length is below 64. -/
def goodU (o : Oracle) (e : Ev) : Bool :=
  match e with
  | Ev.set_aad _ => isGcm o.alg
  | Ev.get_tag _ => isGcm o.alg
  | Ev.fillBuf l => decide (l < 64)
  | _ => true

/-- Does a `set_iv` event pass the vector's `idx` field? (`true` on all other
events.) -/
def setIvUsesIdx (tc : TestCase) (e : Ev) : Bool :=
  match e with
  | Ev.set_iv iv _ _ => iv == IvArg.bytes tc.idx
  | _ => true

/-- The events a single instruction may emit, besides the interpreter's own
`dealloc` on an early return: used as the premise of the trace lemmas. -/
def stepAllows (P : Ev → Bool) : Step → Prop
  | Step.callInitS => ∀ st, P (Ev.init st) = true
  | Step.callSetIvS iv dir => ∀ st, P (Ev.set_iv iv dir st) = true
  | Step.callSetAadS => ∀ st, P (Ev.set_aad st) = true
  | Step.callEncryptS => ∀ st, P (Ev.encrypt st) = true
  | Step.callDecryptS => ∀ st, P (Ev.decrypt st) = true
  | Step.callGetTagAddS => ∀ st, P (Ev.get_tag st) = true
  | Step.callGetTagSetS => ∀ st, P (Ev.get_tag st) = true
  | Step.guardCondS _ _ => True
  | Step.guardLenNeS _ _ => True
  | Step.cmpS _ => True
  | Step.emitS evs => evs.all P = true
  | Step.randAdvS _ evs => evs.all P = true

/-- Does the event record a drawn random plaintext length below `cap`?
(`true` on all other events.) -/
def fillBufBelow (cap : Nat) (e : Ev) : Bool :=
  match e with
  | Ev.fillBuf l => decide (l < cap)
  | _ => true

/-- Instructions that cannot take the early-return path when every contract
call of the environment succeeds (used for the benchmark loop, whose body has
no guards and no comparisons). -/
def stepOk (o : Oracle) : Step → Prop
  | Step.callSetAadS => o.hasSetAad = true
  | Step.callGetTagAddS => o.hasGetTag = true
  | Step.callGetTagSetS => o.hasGetTag = true
  | Step.guardCondS cond _ => cond = false
  | Step.guardLenNeS _ _ => False
  | Step.cmpS _ => False
  | _ => True

/-! ## Concrete environments and fixtures used to instantiate theorems -/

/-- An environment in which every contract call succeeds: a non-AEAD
algorithm identity, all contract operations present, every status `ok`,
every stored output length 0, every comparison a match, `rand()` constantly
0. -/
def oAllOk : Oracle :=
  ⟨SRTP_NULL_CIPHER, true, true, true, fun _ => srtp_err_status_ok,
    fun _ => 0, fun _ => true, fun _ => 0⟩

/-- An environment in which every contract call fails: the first driven call
of any loop body returns a generic failure. -/
def oFail : Oracle :=
  ⟨SRTP_NULL_CIPHER, true, true, true, fun _ => srtp_err_status_fail,
    fun _ => 0, fun _ => true, fun _ => 0⟩

/-- Like `oAllOk`, but the 11th dispatched contract call fails: driving the
self-test on one trivial vector, that is exactly the encrypt-direction
`set_iv` call of the first randomized trial, so the run stops right after the
call whose IV argument claim C1 is about. -/
def oC1 : Oracle :=
  ⟨SRTP_NULL_CIPHER, true, false, false,
    fun n => if n = 10 then srtp_err_status_fail else srtp_err_status_ok,
    fun _ => 0, fun _ => true, fun _ => 0⟩

/-- An AES-GCM-128 environment whose contract lacks `set_aad` (and
`get_tag`); calls otherwise succeed. -/
def oGcmNoAad : Oracle :=
  ⟨SRTP_AES_GCM_128, true, false, false, fun _ => srtp_err_status_ok,
    fun _ => 0, fun _ => true, fun _ => 0⟩

/-- An AES-GCM-128 environment whose contract has `set_aad` but lacks
`get_tag`; calls otherwise succeed. -/
def oGcmNoTag : Oracle :=
  ⟨SRTP_AES_GCM_128, true, true, false, fun _ => srtp_err_status_ok,
    fun _ => 0, fun _ => true, fun _ => 0⟩

/-- A trivial test vector: 16-octet key, IV field `[1]`, empty plaintext,
empty ciphertext, no AAD, no tag. -/
def tc0 : TestCase := ⟨16, [], [1], 0, [], 0, [], 0, [], 0⟩

/-- A vector whose declared ciphertext length (200) exceeds the 128-octet
scratch capacity. -/
def tcBig : TestCase := ⟨16, [], [1], 0, [], 200, [], 0, [], 0⟩

/-- A vector whose key length (65) exceeds the 64-octet random-key buffer. -/
def tcKey65 : TestCase := ⟨65, [], [1], 0, [], 0, [], 0, [], 0⟩

/-- A concrete contract (over trivial state) implementing every required
operation but neither optional one. -/
def opsNoAead : srtp_cipher_type_t Unit :=
  ⟨fun _ => srtp_err_status_ok, fun _ _ => srtp_err_status_ok,
    fun _ _ _ => srtp_err_status_ok, fun _ _ _ => srtp_err_status_ok,
    fun _ _ _ => srtp_err_status_ok, none, none⟩

/-- A valid instance (contract and state present) of `opsNoAead`. -/
def instNoAead : srtp_cipher_t Unit :=
  ⟨some opsNoAead, some (), SRTP_NULL_CIPHER, 16⟩

/-! # Lemmas and theorems -/

theorem countP_copyEvs (p : Ev → Bool) (h : ∀ i, p (Ev.copyWrite i) = false)
    (n : Nat) : (copyEvs n).countP p = 0 := by
  refine List.countP_eq_zero.mpr ?_
  intro a ha
  simp only [copyEvs, List.mem_map, List.mem_range] at ha
  obtain ⟨i, _, rfl⟩ := ha
  simp [h i]

theorem all_copyEvs (p : Ev → Bool) (h : ∀ i, p (Ev.copyWrite i) = true)
    (n : Nat) : (copyEvs n).all p = true := by
  refine List.all_eq_true.mpr ?_
  intro a ha
  simp only [copyEvs, List.mem_map, List.mem_range] at ha
  obtain ⟨i, _, rfl⟩ := ha
  exact h i

theorem forall_mem_copyEvs (p : Ev → Bool)
    (h : ∀ i, p (Ev.copyWrite i) = true) (n : Nat) :
    ∀ x ∈ copyEvs n, p x = true :=
  List.all_eq_true.mp (all_copyEvs p h n)

theorem countP_eq_zero_of_all (p : Ev → Bool) (t : List Ev)
    (h : t.all (fun e => !p e) = true) : t.countP p = 0 := by
  refine List.countP_eq_zero.mpr ?_
  intro a ha
  have := List.all_eq_true.mp h a ha
  simpa using this

theorem failRun_all (P : Ev → Bool) (hD : ∀ st, P (Ev.dealloc st) = true)
    (o : Oracle) (dFail : Bool) (ret : srtp_err_status_t) (s : St)
    (a b : Nat) : (failRun o dFail ret s a b).t.all P = true := by
  unfold failRun
  split <;> simp [hD]

theorem failRun_res (o : Oracle) (dFail : Bool) (ret : srtp_err_status_t)
    (s : St) (a b : Nat) : (failRun o dFail ret s a b).res = some ret := by
  unfold failRun
  split <;> rfl

theorem failRun_deallocCount (o : Oracle) (dFail : Bool)
    (ret : srtp_err_status_t) (s : St) (a b : Nat) :
    deallocCount (failRun o dFail ret s a b).t =
      (if dFail then 1 else 0) := by
  unfold failRun
  split <;> simp_all [deallocCount, isDealloc]

theorem execStep_evs_all (P : Ev → Bool) (o : Oracle) (i : Step) (s : St)
    (len tagLen : Nat) (h : stepAllows P i) :
    (execStep o i s len tagLen).evs.all P = true := by
  cases i <;> simp_all [execStep, stepAllows]

theorem execStep_st_none (o : Oracle)
    (hok : ∀ k, o.resp k = srtp_err_status_ok) (i : Step) (s : St)
    (len tagLen : Nat) (h : stepOk o i) :
    (execStep o i s len tagLen).st = none := by
  cases i <;> simp_all [execStep, stepOk]

theorem runSteps_all (P : Ev → Bool) (hD : ∀ st, P (Ev.dealloc st) = true)
    (o : Oracle) (dFail : Bool) :
    ∀ (p : List Step) (s : St) (len tagLen : Nat),
      (∀ i ∈ p, stepAllows P i) →
      (runSteps o dFail p s len tagLen).t.all P = true := by
  intro p
  induction p with
  | nil => intro s len tagLen _; simp [runSteps]
  | cons i rest ih =>
    intro s len tagLen hp
    have h0 := hp i (List.mem_cons_self i rest)
    have h1 : ∀ j ∈ rest, stepAllows P j :=
      fun j hj => hp j (List.mem_cons_of_mem i hj)
    have he := execStep_evs_all P o i s len tagLen h0
    simp only [runSteps]
    rcases hx : (execStep o i s len tagLen).st with _ | ret <;>
      simp [hx, withEvs, List.all_append, he, failRun_all P hD,
        ih _ _ _ h1]

theorem runSteps_deallocCount (o : Oracle) (dFail : Bool) :
    ∀ (p : List Step) (s : St) (len tagLen : Nat),
      (∀ i ∈ p, stepAllows (fun e => !isDealloc e) i) →
      deallocCount (runSteps o dFail p s len tagLen).t =
        (runSteps o dFail p s len tagLen).res.elim 0
          (fun _ => if dFail then 1 else 0) := by
  intro p
  induction p with
  | nil => intro s len tagLen _; simp [runSteps, deallocCount]
  | cons i rest ih =>
    intro s len tagLen hp
    have h0 := hp i (List.mem_cons_self i rest)
    have h1 : ∀ j ∈ rest, stepAllows (fun e => !isDealloc e) j :=
      fun j hj => hp j (List.mem_cons_of_mem i hj)
    have he : (execStep o i s len tagLen).evs.countP isDealloc = 0 :=
      countP_eq_zero_of_all _ _ (execStep_evs_all _ o i s len tagLen h0)
    simp only [runSteps]
    rcases hx : execStep o i s len tagLen with ⟨xst, xs, xlen, xtag, xevs⟩
    rw [hx] at he
    simp only at he
    rcases xst with _ | ret
    · have hrec := ih xs xlen xtag h1
      simp only [deallocCount] at hrec ⊢
      simp [withEvs, List.countP_append, he, hrec]
    · have hf := failRun_deallocCount o dFail ret xs xlen xtag
      simp only [deallocCount] at hf
      simp [withEvs, deallocCount, List.countP_append, he, hf, failRun_res]

theorem runSteps_allocOkCount (o : Oracle) (dFail : Bool) (p : List Step)
    (s : St) (len tagLen : Nat)
    (hp : ∀ i ∈ p, stepAllows (fun e => !isAllocOk e) i) :
    allocOkCount (runSteps o dFail p s len tagLen).t = 0 :=
  countP_eq_zero_of_all _ _
    (runSteps_all _ (fun _ => rfl) o dFail p s len tagLen hp)

theorem isAllocOk_alloc (st : srtp_err_status_t) :
    isAllocOk (Ev.alloc st) = decide (st = srtp_err_status_ok) := by
  cases st <;> rfl

theorem all_mono (p q : Ev → Bool) (h : ∀ e, p e = true → q e = true)
    (t : List Ev) (hp : t.all p = true) : t.all q = true := by
  rw [List.all_eq_true] at hp ⊢
  exact fun e he => h e (hp e he)

theorem runSteps_res_none (o : Oracle) (dFail : Bool)
    (hok : ∀ k, o.resp k = srtp_err_status_ok) :
    ∀ (p : List Step) (s : St) (len tagLen : Nat),
      (∀ i ∈ p, stepOk o i) →
      (runSteps o dFail p s len tagLen).res = none := by
  intro p
  induction p with
  | nil => intro s len tagLen _; simp [runSteps]
  | cons i rest ih =>
    intro s len tagLen hp
    have h0 := hp i (List.mem_cons_self i rest)
    have h1 : ∀ j ∈ rest, stepOk o j :=
      fun j hj => hp j (List.mem_cons_of_mem i hj)
    have hx := execStep_st_none o hok i s len tagLen h0
    simp only [runSteps]
    simp [hx, withEvs, ih _ _ _ h1]

/-! ### The instruction lists of the three loop bodies satisfy their premises -/

theorem katProg_allows (o : Oracle) (tc : TestCase) (P : Ev → Bool)
    (hInit : ∀ st, P (Ev.init st) = true)
    (hIv : ∀ dir st, P (Ev.set_iv (IvArg.bytes tc.idx) dir st) = true)
    (hAad : isGcm o.alg = true → ∀ st, P (Ev.set_aad st) = true)
    (hTag : isGcm o.alg = true → ∀ st, P (Ev.get_tag st) = true)
    (hEnc : ∀ st, P (Ev.encrypt st) = true)
    (hDec : ∀ st, P (Ev.decrypt st) = true)
    (hCopy : ∀ i, P (Ev.copyWrite i) = true) :
    ∀ i ∈ katProg o tc, stepAllows P i := by
  by_cases hg : isGcm o.alg = true
  · simp [katProg, hg, List.forall_mem_cons, List.forall_mem_append,
      stepAllows, hInit, hIv, hEnc, hDec, hAad hg, hTag hg]
    exact ⟨forall_mem_copyEvs P hCopy _, forall_mem_copyEvs P hCopy _⟩
  · simp [katProg, hg, List.forall_mem_cons, List.forall_mem_append,
      stepAllows, hInit, hIv, hEnc, hDec]
    exact ⟨forall_mem_copyEvs P hCopy _, forall_mem_copyEvs P hCopy _⟩

theorem randProg_allows (o : Oracle) (tc : TestCase) (r0 : Nat) (P : Ev → Bool)
    (hInit : ∀ st, P (Ev.init st) = true)
    (hIv : ∀ dir st, P (Ev.set_iv (IvArg.bytes tc.idx) dir st) = true)
    (hAad : isGcm o.alg = true → ∀ st, P (Ev.set_aad st) = true)
    (hTag : isGcm o.alg = true → ∀ st, P (Ev.get_tag st) = true)
    (hEnc : ∀ st, P (Ev.encrypt st) = true)
    (hDec : ∀ st, P (Ev.decrypt st) = true)
    (hCopy : ∀ i, P (Ev.copyWrite i) = true)
    (hFillB : ∀ x, P (Ev.fillBuf (x % (SELF_TEST_BUF_OCTETS - 64))) = true)
    (hFillK : P (Ev.fillKey tc.key_length_octets) = true)
    (hFillIv : ∀ bs, P (Ev.fillIv bs) = true) :
    ∀ i ∈ randProg o tc r0, stepAllows P i := by
  by_cases hg : isGcm o.alg = true
  · simp [randProg, hg, List.forall_mem_cons, List.forall_mem_append,
      stepAllows, hInit, hIv, hEnc, hDec, hAad hg, hTag hg, hFillB, hFillK,
      hFillIv]
    exact forall_mem_copyEvs P hCopy _
  · simp [randProg, hg, List.forall_mem_cons, List.forall_mem_append,
      stepAllows, hInit, hIv, hEnc, hDec, hFillB, hFillK, hFillIv]
    exact forall_mem_copyEvs P hCopy _

theorem benchProg_allows (o : Oracle) (i : Nat) (P : Ev → Bool)
    (hIv : ∀ st,
      P (Ev.set_iv (IvArg.benchNonce i) srtp_direction_encrypt st) = true)
    (hAad : o.hasSetAad = true → ∀ st, P (Ev.set_aad st) = true)
    (hTag : o.hasGetTag = true → ∀ st, P (Ev.get_tag st) = true)
    (hEnc : ∀ st, P (Ev.encrypt st) = true) :
    ∀ j ∈ benchProg o i, stepAllows P j := by
  by_cases ha : o.hasSetAad = true <;> by_cases hg : o.hasGetTag = true
  · simp [benchProg, ha, hg, List.forall_mem_cons, List.forall_mem_append,
      stepAllows, hIv, hEnc, hAad ha, hTag hg]
  · simp [benchProg, ha, hg, List.forall_mem_cons, List.forall_mem_append,
      stepAllows, hIv, hEnc, hAad ha]
  · simp [benchProg, ha, hg, List.forall_mem_cons, List.forall_mem_append,
      stepAllows, hIv, hEnc, hTag hg]
  · simp [benchProg, ha, hg, List.forall_mem_cons, List.forall_mem_append,
      stepAllows, hIv, hEnc]

theorem benchProg_stepOk (o : Oracle) (i : Nat) :
    ∀ j ∈ benchProg o i, stepOk o j := by
  by_cases ha : o.hasSetAad = true <;> by_cases hg : o.hasGetTag = true <;>
    simp [benchProg, ha, hg, List.forall_mem_cons, List.forall_mem_append,
      stepOk]

/-! ### Known-answer engine lemmas -/

theorem katCase_all (o : Oracle) (tc : TestCase) (s0 : St) (P : Ev → Bool)
    (hA : ∀ st, P (Ev.alloc st) = true)
    (hD : ∀ st, P (Ev.dealloc st) = true)
    (hp : ∀ i ∈ katProg o tc, stepAllows P i) :
    (katCase o tc s0).2.2.all P = true := by
  have hr := runSteps_all P hD o true (katProg o tc) ⟨s0.n + 1, s0.m, s0.r⟩
    SELF_TEST_BUF_OCTETS 0 hp
  unfold katCase
  simp only [callAlloc, callDealloc]
  generalize (if o.hasAlloc = true then o.resp s0.n
    else srtp_err_status_bad_param) = ast
  split
  · simp [hA]
  · rcases hres : (runSteps o true (katProg o tc) ⟨s0.n + 1, s0.m, s0.r⟩
      SELF_TEST_BUF_OCTETS 0).res with _ | st
    · simp [List.all_append, hA, hD, hr]
    · simp [List.all_append, hA, hr]

theorem katCase_bal (o : Oracle) (tc : TestCase) (s0 : St) :
    deallocCount (katCase o tc s0).2.2 =
      allocOkCount (katCase o tc s0).2.2 := by
  have hp1 : ∀ i ∈ katProg o tc, stepAllows (fun e => !isDealloc e) i :=
    katProg_allows o tc _ (fun _ => rfl) (fun _ _ => rfl) (fun _ _ => rfl)
      (fun _ _ => rfl) (fun _ => rfl) (fun _ => rfl) (fun _ => rfl)
  have hp2 : ∀ i ∈ katProg o tc, stepAllows (fun e => !isAllocOk e) i :=
    katProg_allows o tc _ (fun _ => rfl) (fun _ _ => rfl) (fun _ _ => rfl)
      (fun _ _ => rfl) (fun _ => rfl) (fun _ => rfl) (fun _ => rfl)
  have hd := runSteps_deallocCount o true (katProg o tc)
    ⟨s0.n + 1, s0.m, s0.r⟩ SELF_TEST_BUF_OCTETS 0 hp1
  have ha := runSteps_allocOkCount o true (katProg o tc)
    ⟨s0.n + 1, s0.m, s0.r⟩ SELF_TEST_BUF_OCTETS 0 hp2
  simp only [deallocCount] at hd
  simp only [allocOkCount] at ha
  unfold katCase
  simp only [callAlloc, callDealloc]
  generalize (if o.hasAlloc = true then o.resp s0.n
    else srtp_err_status_bad_param) = ast
  split
  · rename_i hfail
    simp [deallocCount, allocOkCount, isAllocOk_alloc, isDealloc, hfail]
  · rename_i hok
    simp only [ne_eq, not_not] at hok
    subst hok
    rcases hres : (runSteps o true (katProg o tc) ⟨s0.n + 1, s0.m, s0.r⟩
      SELF_TEST_BUF_OCTETS 0).res with _ | st
    · rw [hres] at hd
      simp only [Option.elim] at hd
      simp [deallocCount, allocOkCount, List.countP_append,
        List.countP_cons, isAllocOk, isDealloc, hd, ha]
    · rw [hres] at hd
      simp only [Option.elim] at hd
      simp [deallocCount, allocOkCount, List.countP_append,
        List.countP_cons, isAllocOk, isDealloc, hd, ha]

theorem katLoop_all (o : Oracle) (P : Ev → Bool)
    (hA : ∀ st, P (Ev.alloc st) = true)
    (hD : ∀ st, P (Ev.dealloc st) = true) :
    ∀ (tcs : List TestCase) (s : St),
      (∀ tc ∈ tcs, ∀ i ∈ katProg o tc, stepAllows P i) →
      (katLoop o tcs s).2.2.all P = true := by
  intro tcs
  induction tcs with
  | nil => intro s _; simp [katLoop]
  | cons tc rest ih =>
    intro s hp
    have h2 := katCase_all o tc s P hA hD (hp tc (List.mem_cons_self tc rest))
    have h3 := ih (katCase o tc s).2.1
      (fun u hu => hp u (List.mem_cons_of_mem tc hu))
    simp only [katLoop]
    rcases hk : katCase o tc s with ⟨ores, s1, t⟩
    rw [hk] at h2 h3
    simp only at h2 h3
    rcases ores with _ | st
    · simp [List.all_append, h2, h3]
    · simp [h2]

theorem katLoop_bal (o : Oracle) :
    ∀ (tcs : List TestCase) (s : St),
      deallocCount (katLoop o tcs s).2.2 =
        allocOkCount (katLoop o tcs s).2.2 := by
  intro tcs
  induction tcs with
  | nil => intro s; simp [katLoop, deallocCount, allocOkCount]
  | cons tc rest ih =>
    intro s
    have hb := katCase_bal o tc s
    have h3 := ih (katCase o tc s).2.1
    simp only [katLoop]
    rcases hk : katCase o tc s with ⟨ores, s1, t⟩
    rw [hk] at hb h3
    simp only at hb h3
    rcases ores with _ | st
    · simp only [deallocCount, allocOkCount, List.countP_append] at hb h3 ⊢
      simp [hb, h3]
    · simpa using hb

/-! ### Randomized engine lemmas -/

theorem randTrial_all (o : Oracle) (tc : TestCase) (s0 : St) (P : Ev → Bool)
    (hD : ∀ st, P (Ev.dealloc st) = true)
    (hp : ∀ i ∈ randProg o tc s0.r, stepAllows P i) :
    (randTrial o tc s0).2.2.all P = true := by
  unfold randTrial
  exact runSteps_all P hD o true (randProg o tc s0.r) s0
    SELF_TEST_BUF_OCTETS 0 hp

theorem randTrial_deallocCount (o : Oracle) (tc : TestCase) (s0 : St) :
    deallocCount (randTrial o tc s0).2.2 =
      (randTrial o tc s0).1.elim 0 (fun _ => 1) := by
  have hp1 : ∀ i ∈ randProg o tc s0.r, stepAllows (fun e => !isDealloc e) i :=
    randProg_allows o tc s0.r _ (fun _ => rfl) (fun _ _ => rfl)
      (fun _ _ => rfl) (fun _ _ => rfl) (fun _ => rfl) (fun _ => rfl)
      (fun _ => rfl) (fun _ => rfl) rfl (fun _ => rfl)
  have hd := runSteps_deallocCount o true (randProg o tc s0.r) s0
    SELF_TEST_BUF_OCTETS 0 hp1
  unfold randTrial
  simpa using hd

theorem randTrial_allocOkCount (o : Oracle) (tc : TestCase) (s0 : St) :
    allocOkCount (randTrial o tc s0).2.2 = 0 := by
  have hp2 : ∀ i ∈ randProg o tc s0.r, stepAllows (fun e => !isAllocOk e) i :=
    randProg_allows o tc s0.r _ (fun _ => rfl) (fun _ _ => rfl)
      (fun _ _ => rfl) (fun _ _ => rfl) (fun _ => rfl) (fun _ => rfl)
      (fun _ => rfl) (fun _ => rfl) rfl (fun _ => rfl)
  unfold randTrial
  exact runSteps_allocOkCount o true (randProg o tc s0.r) s0
    SELF_TEST_BUF_OCTETS 0 hp2

theorem randTrials_all (o : Oracle) (tc : TestCase) (P : Ev → Bool)
    (hD : ∀ st, P (Ev.dealloc st) = true)
    (hp : ∀ r0, ∀ i ∈ randProg o tc r0, stepAllows P i) :
    ∀ (j : Nat) (s : St), (randTrials o tc j s).2.2.all P = true := by
  intro j
  induction j with
  | zero => intro s; simp [randTrials]
  | succ j ih =>
    intro s
    have h2 := randTrial_all o tc s P hD (hp s.r)
    have h3 := ih (randTrial o tc s).2.1
    simp only [randTrials]
    rcases hk : randTrial o tc s with ⟨ores, s1, t⟩
    rw [hk] at h2 h3
    simp only at h2 h3
    rcases ores with _ | st
    · simp [List.all_append, h2, h3]
    · simp [h2]

theorem randTrials_counts (o : Oracle) (tc : TestCase) :
    ∀ (j : Nat) (s : St),
      allocOkCount (randTrials o tc j s).2.2 = 0 ∧
      deallocCount (randTrials o tc j s).2.2 =
        (randTrials o tc j s).1.elim 0 (fun _ => 1) := by
  intro j
  induction j with
  | zero => intro s; simp [randTrials, allocOkCount, deallocCount]
  | succ j ih =>
    intro s
    have h1 := randTrial_allocOkCount o tc s
    have h2 := randTrial_deallocCount o tc s
    obtain ⟨ia, idl⟩ := ih (randTrial o tc s).2.1
    simp only [randTrials]
    rcases hk : randTrial o tc s with ⟨ores, s1, t⟩
    rw [hk] at h1 h2 ia idl
    simp only at h1 h2 ia idl
    rcases ores with _ | st
    · simp only [allocOkCount, deallocCount, List.countP_append,
        Option.elim] at h1 h2 ia idl ⊢
      simp [h1, h2, ia, idl]
    · simp only [allocOkCount, deallocCount, Option.elim] at h1 h2 ⊢
      simp [h1, h2]

theorem randPass_bal (o : Oracle) (tc : TestCase) (s0 : St) :
    deallocCount (randPass o tc s0).2.2 =
      allocOkCount (randPass o tc s0).2.2 := by
  obtain ⟨ha2, hd2⟩ := randTrials_counts o tc NUM_RAND_TESTS
    ⟨s0.n + 1, s0.m, s0.r⟩
  unfold randPass
  simp only [callAlloc, callDealloc]
  generalize (if o.hasAlloc = true then o.resp s0.n
    else srtp_err_status_bad_param) = ast
  split
  · rename_i hfail
    simp [deallocCount, allocOkCount, isAllocOk_alloc, isDealloc, hfail]
  · rename_i hok
    simp only [ne_eq, not_not] at hok
    subst hok
    rcases hk : randTrials o tc NUM_RAND_TESTS ⟨s0.n + 1, s0.m, s0.r⟩ with
      ⟨ores, s1, t⟩
    rw [hk] at ha2 hd2
    simp only at ha2 hd2
    rcases ores with _ | st
    · simp only [allocOkCount, deallocCount, List.countP_append,
        List.countP_cons, Option.elim] at ha2 hd2 ⊢
      simp [isAllocOk, isDealloc, ha2, hd2]
    · simp only [allocOkCount, deallocCount, List.countP_append,
        List.countP_cons, Option.elim] at ha2 hd2 ⊢
      simp [isAllocOk, isDealloc, ha2, hd2]

theorem randPass_all (o : Oracle) (tc : TestCase) (s0 : St) (P : Ev → Bool)
    (hA : ∀ st, P (Ev.alloc st) = true)
    (hD : ∀ st, P (Ev.dealloc st) = true)
    (hp : ∀ r0, ∀ i ∈ randProg o tc r0, stepAllows P i) :
    (randPass o tc s0).2.2.all P = true := by
  have h2 := randTrials_all o tc P hD hp NUM_RAND_TESTS ⟨s0.n + 1, s0.m, s0.r⟩
  unfold randPass
  simp only [callAlloc, callDealloc]
  generalize (if o.hasAlloc = true then o.resp s0.n
    else srtp_err_status_bad_param) = ast
  split
  · simp [hA]
  · rcases hk : randTrials o tc NUM_RAND_TESTS ⟨s0.n + 1, s0.m, s0.r⟩ with
      ⟨ores, s1, t⟩
    rw [hk] at h2
    simp only at h2
    rcases ores with _ | st
    · simp [List.all_append, hA, hD, h2]
    · simp [List.all_append, hA, h2]

/-! ### Whole self-test lemmas -/

theorem typeTest_all (o : Oracle) (P : Ev → Bool)
    (hA : ∀ st, P (Ev.alloc st) = true)
    (hD : ∀ st, P (Ev.dealloc st) = true)
    (hpK : ∀ tc, ∀ i ∈ katProg o tc, stepAllows P i)
    (hpR : ∀ tc r0, ∀ i ∈ randProg o tc r0, stepAllows P i) :
    ∀ tcs, (srtp_cipher_type_test o tcs).2.2.all P = true := by
  intro tcs
  cases tcs with
  | nil => simp [srtp_cipher_type_test]
  | cons tc rest =>
    have h1 := katLoop_all o P hA hD (tc :: rest) ⟨0, 0, 0⟩ (fun u _ => hpK u)
    have h2 := randPass_all o tc (katLoop o (tc :: rest) ⟨0, 0, 0⟩).2.1 P hA hD
      (hpR tc)
    simp only [srtp_cipher_type_test]
    rcases hk : katLoop o (tc :: rest) ⟨0, 0, 0⟩ with ⟨ores, s1, t⟩
    rw [hk] at h1 h2
    simp only at h1 h2
    rcases ores with _ | st
    · simp [List.all_append, h1, h2]
    · simp [h1]

theorem typeTest_bal (o : Oracle) :
    ∀ tcs, deallocCount (srtp_cipher_type_test o tcs).2.2 =
      allocOkCount (srtp_cipher_type_test o tcs).2.2 := by
  intro tcs
  cases tcs with
  | nil => simp [srtp_cipher_type_test, deallocCount, allocOkCount]
  | cons tc rest =>
    have h1 := katLoop_bal o (tc :: rest) ⟨0, 0, 0⟩
    have h2 := randPass_bal o tc (katLoop o (tc :: rest) ⟨0, 0, 0⟩).2.1
    simp only [srtp_cipher_type_test]
    rcases hk : katLoop o (tc :: rest) ⟨0, 0, 0⟩ with ⟨ores, s1, t⟩
    rw [hk] at h1 h2
    simp only at h1 h2
    rcases ores with _ | st
    · simp only [deallocCount, allocOkCount, List.countP_append] at h1 h2 ⊢
      simp [h1, h2]
    · simpa using h1

/-! ### Benchmark lemmas -/

theorem benchTrial_all (o : Oracle) (i len tagLen : Nat) (s0 : St)
    (P : Ev → Bool) (hD : ∀ st, P (Ev.dealloc st) = true)
    (hp : ∀ j ∈ benchProg o i, stepAllows P j) :
    (benchTrial o i len tagLen s0).2.2.2.2.all P = true := by
  unfold benchTrial
  exact runSteps_all P hD o false (benchProg o i) s0 len tagLen hp

theorem benchTrial_true (o : Oracle) (i len tagLen : Nat) (s0 : St)
    (hok : ∀ k, o.resp k = srtp_err_status_ok) :
    (benchTrial o i len tagLen s0).1 = true := by
  unfold benchTrial
  simp [runSteps_res_none o false hok (benchProg o i) s0 len tagLen
    (benchProg_stepOk o i)]

theorem benchLoop_all (o : Oracle) (P : Ev → Bool)
    (hD : ∀ st, P (Ev.dealloc st) = true)
    (hp : ∀ i, ∀ j ∈ benchProg o i, stepAllows P j) :
    ∀ (trials i len tagLen : Nat) (s : St),
      (benchLoop o trials i len tagLen s).2.2.all P = true := by
  intro trials
  induction trials with
  | zero => intro i len tagLen s; simp [benchLoop]
  | succ j ih =>
    intro i len tagLen s
    have h2 := benchTrial_all o i len tagLen s P hD (hp i)
    simp only [benchLoop]
    rcases hk : benchTrial o i len tagLen s with ⟨b, len1, tag1, s1, t⟩
    rw [hk] at h2
    simp only at h2
    rcases b with _ | _
    · simp [h2]
    · simp [List.all_append, h2, ih]

theorem benchLoop_true (o : Oracle)
    (hok : ∀ k, o.resp k = srtp_err_status_ok) :
    ∀ (trials i len tagLen : Nat) (s : St),
      (benchLoop o trials i len tagLen s).1 = true := by
  intro trials
  induction trials with
  | zero => intro i len tagLen s; simp [benchLoop]
  | succ j ih =>
    intro i len tagLen s
    have hb := benchTrial_true o i len tagLen s hok
    simp only [benchLoop]
    rcases hk : benchTrial o i len tagLen s with ⟨b, len1, tag1, s1, t⟩
    rw [hk] at hb
    simp only at hb
    subst hb
    simp [ih]

/-! ### The uniform engine invariant -/

theorem typeTest_goodU (o : Oracle) (tcs : List TestCase) :
    (srtp_cipher_type_test o tcs).2.2.all (goodU o) = true := by
  refine typeTest_all o (goodU o) (fun _ => rfl) (fun _ => rfl) ?_ ?_ tcs
  · intro tc
    exact katProg_allows o tc _ (fun _ => rfl) (fun _ _ => rfl)
      (fun hg st => by simp [goodU, hg]) (fun hg st => by simp [goodU, hg])
      (fun _ => rfl) (fun _ => rfl) (fun _ => rfl)
  · intro tc r0
    refine randProg_allows o tc r0 _ (fun _ => rfl) (fun _ _ => rfl)
      (fun hg st => by simp [goodU, hg]) (fun hg st => by simp [goodU, hg])
      (fun _ => rfl) (fun _ => rfl) (fun _ => rfl) ?_ rfl (fun _ => rfl)
    intro x
    simp only [goodU, decide_eq_true_eq]
    exact Nat.mod_lt _ (by decide)

/-! ## Claim theorems -/

/-- C4: a capability descriptor whose test-vector list is empty makes the
self-test return `cant_check` immediately; the empty trace shows no cipher
instance is allocated and no contract operation is invoked
(cipher.c lines 228-240, 621-624). -/
theorem c4_empty_vector_guard (d : Descriptor) (h : d.test_data = []) :
    srtp_cipher_type_self_test d =
      (srtp_err_status_cant_check, (⟨0, 0, 0⟩ : St), ([] : List Ev)) := by
  unfold srtp_cipher_type_self_test
  rw [h]
  rfl

/-- C4 witness: the guard at the concrete descriptor with a null test-vector
list. -/
theorem c4_witness :
    srtp_cipher_type_self_test ⟨oAllOk, []⟩ =
      (srtp_err_status_cant_check, (⟨0, 0, 0⟩ : St), ([] : List Ev)) :=
  c4_empty_vector_guard ⟨oAllOk, []⟩ rfl

/-- C5: on a valid instance (non-null, contract and state present) whose
contract lacks the optional `get_tag`/`set_aad` operation, the dispatch
returns `no_such_op`; `bad_param` is returned exactly when the instance, its
contract, or its state is missing; and the two outcomes are distinct
(cipher.c lines 140-152, 154-166). -/
theorem c5_optional_ops (σ : Type) (buffer aad : List Nat) (tl al : Nat) :
    (∀ (ci : srtp_cipher_t σ) t s, ci.type = some t → ci.state = some s →
      t.get_tag = none →
      srtp_cipher_get_tag (some ci) buffer tl =
        CResult.ret srtp_err_status_no_such_op) ∧
    (srtp_cipher_get_tag (σ := σ) none buffer tl =
      CResult.ret srtp_err_status_bad_param) ∧
    (∀ ci : srtp_cipher_t σ, ci.type = none →
      srtp_cipher_get_tag (some ci) buffer tl =
        CResult.ret srtp_err_status_bad_param) ∧
    (∀ (ci : srtp_cipher_t σ) t, ci.type = some t → ci.state = none →
      srtp_cipher_get_tag (some ci) buffer tl =
        CResult.ret srtp_err_status_bad_param) ∧
    (∀ (ci : srtp_cipher_t σ) t s, ci.type = some t → ci.state = some s →
      t.set_aad = none →
      srtp_cipher_set_aad (some ci) aad al =
        CResult.ret srtp_err_status_no_such_op) ∧
    (srtp_cipher_set_aad (σ := σ) none aad al =
      CResult.ret srtp_err_status_bad_param) ∧
    (∀ ci : srtp_cipher_t σ, ci.type = none →
      srtp_cipher_set_aad (some ci) aad al =
        CResult.ret srtp_err_status_bad_param) ∧
    (∀ (ci : srtp_cipher_t σ) t, ci.type = some t → ci.state = none →
      srtp_cipher_set_aad (some ci) aad al =
        CResult.ret srtp_err_status_bad_param) ∧
    srtp_err_status_no_such_op ≠ srtp_err_status_bad_param := by
  refine ⟨?_, rfl, ?_, ?_, ?_, rfl, ?_, ?_, by decide⟩
  · intro ci t s h1 h2 h3
    simp [srtp_cipher_get_tag, h1, h2, h3]
  · intro ci h1
    simp [srtp_cipher_get_tag, h1]
  · intro ci t h1 h2
    simp [srtp_cipher_get_tag, h1, h2]
  · intro ci t s h1 h2 h3
    simp [srtp_cipher_set_aad, h1, h2, h3]
  · intro ci h1
    simp [srtp_cipher_set_aad, h1]
  · intro ci t h1 h2
    simp [srtp_cipher_set_aad, h1, h2]

/-- C5 witness: at the concrete valid instance of a contract without the
optional operations, both calls return `no_such_op`. -/
theorem c5_witness :
    srtp_cipher_get_tag (some instNoAead) [] 0 =
      CResult.ret srtp_err_status_no_such_op ∧
    srtp_cipher_set_aad (some instNoAead) [] 0 =
      CResult.ret srtp_err_status_no_such_op := by
  have h := c5_optional_ops Unit [] [] 0 0
  exact ⟨h.1 instNoAead opsNoAead () rfl rfl rfl,
    h.2.2.2.2.1 instNoAead opsNoAead () rfl rfl rfl⟩

/-- C2 counterexample: `srtp_cipher_output` (cipher.c lines 102-112) performs
no validation, so a null instance — and likewise an instance whose contract
pointer is null — is a null-pointer dereference (crash), not the claimed
`bad_param` return. -/
theorem c2_counterexample :
    srtp_cipher_output (σ := Unit) none [0] 1 = CResult.crash ∧
    srtp_cipher_output (σ := Unit)
      (some ⟨none, some (), SRTP_NULL_CIPHER, 16⟩) [0] 1 = CResult.crash ∧
    CResult.crash ≠ CResult.ret srtp_err_status_bad_param :=
  ⟨rfl, rfl, by decide⟩

/-- C2 amended: unlike every other public dispatch operation,
`srtp_cipher_output` forwards without validating; a null instance or missing
contract dereferences a null pointer (crash) instead of returning
`bad_param`, while e.g. `srtp_cipher_encrypt`, `srtp_cipher_get_tag` and
`srtp_cipher_set_aad` do return `bad_param` on a null instance. -/
theorem c2_amended (σ : Type) (buffer : List Nat) (k : Nat)
    (st : Option σ) (alg : srtp_cipher_type_id_t) (kl : Nat) :
    srtp_cipher_output (σ := σ) none buffer k = CResult.crash ∧
    srtp_cipher_output (some (⟨none, st, alg, kl⟩ : srtp_cipher_t σ))
      buffer k = CResult.crash ∧
    srtp_cipher_encrypt (σ := σ) none buffer k =
      CResult.ret srtp_err_status_bad_param ∧
    srtp_cipher_encrypt (some (⟨none, st, alg, kl⟩ : srtp_cipher_t σ))
      buffer k = CResult.ret srtp_err_status_bad_param ∧
    srtp_cipher_get_tag (σ := σ) none buffer k =
      CResult.ret srtp_err_status_bad_param ∧
    srtp_cipher_set_aad (σ := σ) none buffer k =
      CResult.ret srtp_err_status_bad_param :=
  ⟨rfl, rfl, rfl, rfl, rfl, rfl⟩

/-- C6: over every possible behaviour of the underlying cipher and every
test-vector list, the self-test's trace contains exactly as many
deallocation calls as successful allocations — no path returns after a
successful allocation without a matching dealloc, and none deallocates
twice (cipher.c lines 240-461, 463-614). -/
theorem c6_no_leak (o : Oracle) (tcs : List TestCase) :
    deallocCount (srtp_cipher_type_test o tcs).2.2 =
      allocOkCount (srtp_cipher_type_test o tcs).2.2 :=
  typeTest_bal o tcs

/-- C8: every drawn random plaintext length recorded in any self-test run is
strictly below 64; it is computed as a 32-bit pseudorandom value reduced
modulo `SELF_TEST_BUF_OCTETS - 64 = 64`, so it never reaches the 128-octet
scratch capacity (cipher.c lines 470-475, 204-206). -/
theorem c8_plaintext_len_bound (o : Oracle) (tcs : List TestCase) :
    (srtp_cipher_type_test o tcs).2.2.all (fillBufBelow 64) = true ∧
    SELF_TEST_BUF_OCTETS - 64 = 64 ∧
    (∀ r, srtp_cipher_rand_u32_for_tests o r < 2 ^ 32) ∧
    (∀ x : Nat, x % (SELF_TEST_BUF_OCTETS - 64) < SELF_TEST_BUF_OCTETS) := by
  refine ⟨?_, rfl, ?_, ?_⟩
  · refine all_mono (goodU o) (fillBufBelow 64) ?_ _ (typeTest_goodU o tcs)
    intro e
    cases e <;> simp [goodU, fillBufBelow]
  · intro r
    unfold srtp_cipher_rand_u32_for_tests randByte
    have h0 : o.rand r % 256 < 256 := Nat.mod_lt _ (by decide)
    have h1 : o.rand (r + 1) % 256 < 256 := Nat.mod_lt _ (by decide)
    have h2 : o.rand (r + 2) % 256 < 256 := Nat.mod_lt _ (by decide)
    have h3 : o.rand (r + 3) % 256 < 256 := Nat.mod_lt _ (by decide)
    omega
  · intro x
    have h : x % (SELF_TEST_BUF_OCTETS - 64) < SELF_TEST_BUF_OCTETS - 64 :=
      Nat.mod_lt _ (by decide)
    omega

/-- C1 amended: in every trial of the randomized round-trip engine, *both*
the encrypt-direction and the decrypt-direction `set_iv` calls pass the first
test vector's `idx` field; the pseudorandom IV drawn for the trial is never
passed to `set_iv` (cipher.c lines 492-493, 502-507, 557-562). -/
theorem c1_amended (o : Oracle) (tc : TestCase) (s0 : St) :
    (randPass o tc s0).2.2.all (setIvUsesIdx tc) = true := by
  refine randPass_all o tc s0 _ (fun _ => rfl) (fun _ => rfl) ?_
  intro r0
  refine randProg_allows o tc r0 _ (fun _ => rfl) ?_ (fun _ _ => rfl)
    (fun _ _ => rfl) (fun _ => rfl) (fun _ => rfl) (fun _ => rfl)
    (fun _ => rfl) rfl (fun _ => rfl)
  intro dir st
  simp [setIvUsesIdx]

/-- C1 counterexample: driving the self-test on one trivial vector (IV field
`[1]`) in an environment where `rand()` is constantly 0 and the 11th contract
call — the first randomized trial's encrypt-direction `set_iv` — fails so the
run stops right there, the full trace shows that trial drew the 64-octet
random IV recorded by `fillIv` (all zeros), yet its encrypt-direction
`set_iv` carries the vector's `idx` field `[1]`; no `set_iv` event with the
drawn IV exists, refuting the claim that the encrypt-direction `set_iv` uses
the pseudorandom IV drawn for the trial. -/
theorem c1_counterexample :
    (srtp_cipher_type_test oC1 [tc0]).2.2 =
      [Ev.alloc srtp_err_status_ok, Ev.init srtp_err_status_ok,
        Ev.set_iv (IvArg.bytes [1]) srtp_direction_encrypt srtp_err_status_ok,
        Ev.encrypt srtp_err_status_ok, Ev.init srtp_err_status_ok,
        Ev.set_iv (IvArg.bytes [1]) srtp_direction_decrypt srtp_err_status_ok,
        Ev.decrypt srtp_err_status_ok, Ev.dealloc srtp_err_status_ok,
        Ev.alloc srtp_err_status_ok, Ev.fillBuf 0, Ev.fillKey 16,
        Ev.fillIv (List.replicate 64 0), Ev.init srtp_err_status_ok,
        Ev.set_iv (IvArg.bytes [1]) srtp_direction_encrypt
          srtp_err_status_fail,
        Ev.dealloc srtp_err_status_ok] ∧
    (∀ dir st, Ev.set_iv (IvArg.bytes (List.replicate 64 0)) dir st ∉
      (srtp_cipher_type_test oC1 [tc0]).2.2) ∧
    IvArg.bytes tc0.idx ≠ IvArg.bytes (List.replicate 64 0) := by
  refine ⟨by decide, ?_, by decide⟩
  intro dir st h
  rw [(by decide : (srtp_cipher_type_test oC1 [tc0]).2.2 =
    [Ev.alloc srtp_err_status_ok, Ev.init srtp_err_status_ok,
      Ev.set_iv (IvArg.bytes [1]) srtp_direction_encrypt srtp_err_status_ok,
      Ev.encrypt srtp_err_status_ok, Ev.init srtp_err_status_ok,
      Ev.set_iv (IvArg.bytes [1]) srtp_direction_decrypt srtp_err_status_ok,
      Ev.decrypt srtp_err_status_ok, Ev.dealloc srtp_err_status_ok,
      Ev.alloc srtp_err_status_ok, Ev.fillBuf 0, Ev.fillKey 16,
      Ev.fillIv (List.replicate 64 0), Ev.init srtp_err_status_ok,
      Ev.set_iv (IvArg.bytes [1]) srtp_direction_encrypt
        srtp_err_status_fail,
      Ev.dealloc srtp_err_status_ok])] at h
  simp only [List.mem_cons, List.not_mem_nil, or_false] at h
  rcases h with h | h | h | h | h | h | h | h | h | h | h | h | h | h <;>
    simp at h

/-- C3: a test vector whose declared ciphertext length exceeds the 128-octet
scratch capacity makes the per-vector known-answer processing return
`bad_param` (not `algo_fail`) right after a successful allocation and
initialization, deallocating the instance; the trace contains no scratch
copy-loop write at all, so nothing is copied past the capacity.  The guard
fires before the encrypt-direction copy (cipher.c lines 260-264); an
identical guard protects the decrypt-direction copy (lines 364-368). -/
theorem c3_capacity_guard (o : Oracle) (tc : TestCase) (s0 : St)
    (hA : o.hasAlloc = true)
    (h0 : o.resp s0.n = srtp_err_status_ok)
    (h1 : o.resp (s0.n + 1) = srtp_err_status_ok)
    (hct : SELF_TEST_BUF_OCTETS < tc.ciphertext_length_octets) :
    katCase o tc s0 = (some srtp_err_status_bad_param,
      (⟨s0.n + 1 + 1 + 1, s0.m, s0.r⟩ : St),
      [Ev.alloc srtp_err_status_ok, Ev.init srtp_err_status_ok,
        Ev.dealloc (o.resp (s0.n + 1 + 1))]) ∧
    (katCase o tc s0).2.2.countP isCopyWrite = 0 ∧
    deallocCount (katCase o tc s0).2.2 =
      allocOkCount (katCase o tc s0).2.2 := by
  have hmain : katCase o tc s0 = (some srtp_err_status_bad_param,
      (⟨s0.n + 1 + 1 + 1, s0.m, s0.r⟩ : St),
      [Ev.alloc srtp_err_status_ok, Ev.init srtp_err_status_ok,
        Ev.dealloc (o.resp (s0.n + 1 + 1))]) := by
    unfold katCase katProg
    simp [callAlloc, callDealloc, runSteps, execStep, failRun, withEvs,
      hA, h0, h1, hct]
  refine ⟨hmain, ?_, katCase_bal o tc s0⟩
  rw [hmain]
  simp [List.countP_cons, isCopyWrite]

/-- C3 witness: the guard at a concrete oversized vector (declared
ciphertext length 200). -/
theorem c3_witness :
    (katCase oAllOk tcBig ⟨0, 0, 0⟩).1 = some srtp_err_status_bad_param ∧
    (katCase oAllOk tcBig ⟨0, 0, 0⟩).2.2.countP isCopyWrite = 0 := by
  have h := c3_capacity_guard oAllOk tcBig ⟨0, 0, 0⟩ rfl rfl rfl (by decide)
  exact ⟨by rw [h.1], h.2.1⟩

/-- C9: when the first test vector's key length exceeds the 64-octet random
key buffer (`MAX_KEY_LEN`), the randomized pass returns `cant_check` in its
first trial, after deallocating the one instance it allocated, and its trace
contains no `fillKey` event: the guard (cipher.c lines 485-489) fires before
`srtp_cipher_rand_for_tests(key, ...)` on line 490, so the 64-octet key
buffer is never written at all, let alone past its capacity. -/
theorem c9_key_guard (o : Oracle) (tc : TestCase) (s0 : St)
    (hA : o.hasAlloc = true)
    (h0 : o.resp s0.n = srtp_err_status_ok)
    (hk : MAX_KEY_LEN < tc.key_length_octets) :
    randPass o tc s0 = (srtp_err_status_cant_check,
      (⟨s0.n + 1 + 1, s0.m, s0.r + 4 +
        srtp_cipher_rand_u32_for_tests o s0.r %
          (SELF_TEST_BUF_OCTETS - 64)⟩ : St),
      Ev.alloc srtp_err_status_ok ::
        Ev.fillBuf (srtp_cipher_rand_u32_for_tests o s0.r %
          (SELF_TEST_BUF_OCTETS - 64)) ::
        (copyEvs (srtp_cipher_rand_u32_for_tests o s0.r %
          (SELF_TEST_BUF_OCTETS - 64)) ++
         [Ev.dealloc (o.resp (s0.n + 1))])) ∧
    (randPass o tc s0).2.2.countP isFillKey = 0 ∧
    deallocCount (randPass o tc s0).2.2 =
      allocOkCount (randPass o tc s0).2.2 := by
  have hmain : randPass o tc s0 = (srtp_err_status_cant_check,
      (⟨s0.n + 1 + 1, s0.m, s0.r + 4 +
        srtp_cipher_rand_u32_for_tests o s0.r %
          (SELF_TEST_BUF_OCTETS - 64)⟩ : St),
      Ev.alloc srtp_err_status_ok ::
        Ev.fillBuf (srtp_cipher_rand_u32_for_tests o s0.r %
          (SELF_TEST_BUF_OCTETS - 64)) ::
        (copyEvs (srtp_cipher_rand_u32_for_tests o s0.r %
          (SELF_TEST_BUF_OCTETS - 64)) ++
         [Ev.dealloc (o.resp (s0.n + 1))])) := by
    unfold randPass
    rw [show NUM_RAND_TESTS = 127 + 1 from rfl]
    simp [callAlloc, callDealloc, randTrials, randTrial, randProg, runSteps,
      execStep, failRun, withEvs, hA, h0, hk]
  refine ⟨hmain, ?_, randPass_bal o tc s0⟩
  rw [hmain]
  simp [List.countP_append, List.countP_cons, isFillKey,
    countP_copyEvs isFillKey (fun _ => rfl)]

/-- C9 witness: the guard at a concrete vector with a 65-octet key length. -/
theorem c9_witness :
    (randPass oAllOk tcKey65 ⟨0, 0, 0⟩).1 = srtp_err_status_cant_check ∧
    (randPass oAllOk tcKey65 ⟨0, 0, 0⟩).2.2.countP isFillKey = 0 := by
  have h := c9_key_guard oAllOk tcKey65 ⟨0, 0, 0⟩ rfl rfl (by decide)
  exact ⟨by rw [h.1], h.2.1⟩

theorem benchFormula_eq2 (cps tr oct : Nat) :
    cps % 2 ^ 64 * tr % 2 ^ 64 * 8 % 2 ^ 64 * oct % 2 ^ 64 =
      cps * tr * 8 * oct % 2 ^ 64 := by
  simp [Nat.mod_mul_mod]

theorem bench_spec (o : Oracle) (oct tr tm cps : Nat) :
    (srtp_cipher_bits_per_second o oct tr true tm cps).1 =
      (if (benchLoop o tr 0 oct SRTP_MAX_TAG_LEN ⟨0, 0, 0⟩).1 = true then
        (if tm = 0 then 0 else cps * tr * 8 * oct % 2 ^ 64 / tm) else 0) := by
  unfold srtp_cipher_bits_per_second
  rcases hkk : benchLoop o tr 0 oct SRTP_MAX_TAG_LEN ⟨0, 0, 0⟩ with ⟨b, s1, t⟩
  rcases b with _ | _ <;> simp [benchFormula_eq2]
  split <;> rfl

theorem bench_trace (o : Oracle) (oct tr tm cps : Nat) :
    (srtp_cipher_bits_per_second o oct tr true tm cps).2.2 =
      (benchLoop o tr 0 oct SRTP_MAX_TAG_LEN ⟨0, 0, 0⟩).2.2 := by
  unfold srtp_cipher_bits_per_second
  rcases hkk : benchLoop o tr 0 oct SRTP_MAX_TAG_LEN ⟨0, 0, 0⟩ with ⟨b, s1, t⟩
  rcases b with _ | _
  · rfl
  · rw [if_neg (show ¬(true = false) by simp)]
    show (if tm = 0 then ((0 : Nat), s1, t)
      else (cps % 2 ^ 64 * tr % 2 ^ 64 * 8 % 2 ^ 64 * oct % 2 ^ 64 / tm,
        s1, t)).2.2 = t
    split <;> rfl

/-- C10: in the two test engines the AEAD-only steps are gated on the
algorithm identity being AES-GCM-128/256 — for any other identity no
`set_aad`/`get_tag` call ever occurs, whatever the contract implements, and
for a GCM identity the engines invoke them even when the contract does not
implement them (getting `no_such_op`); the benchmark instead gates on the
presence of the optional operations in the contract: absent pointers mean no
calls, and present ones are called even for a non-GCM identity
(cipher.c lines 280-319, 384-398, 509-544, 563-577 vs 663-685). -/
theorem c10_aead_gating :
    (∀ (o : Oracle) (tcs : List TestCase), isGcm o.alg = false →
      (srtp_cipher_type_test o tcs).2.2.all noAadTagEv = true) ∧
    (∀ (o : Oracle) (oct tr : Nat) (alOk : Bool) (tm cps : Nat),
      o.hasSetAad = false → o.hasGetTag = false →
      (srtp_cipher_bits_per_second o oct tr alOk tm cps).2.2.all noAadTagEv =
        true) ∧
    Ev.set_aad srtp_err_status_no_such_op ∈
      (srtp_cipher_type_test oGcmNoAad [tc0]).2.2 ∧
    Ev.get_tag srtp_err_status_no_such_op ∈
      (srtp_cipher_type_test oGcmNoTag [tc0]).2.2 ∧
    Ev.set_aad srtp_err_status_ok ∈
      (srtp_cipher_bits_per_second oAllOk 4 1 true 1 1).2.2 ∧
    Ev.get_tag srtp_err_status_ok ∈
      (srtp_cipher_bits_per_second oAllOk 4 1 true 1 1).2.2 := by
  refine ⟨?_, ?_, by decide, by decide, by decide, by decide⟩
  · intro o tcs hg
    refine typeTest_all o noAadTagEv (fun _ => rfl) (fun _ => rfl) ?_ ?_ tcs
    · intro tc
      exact katProg_allows o tc _ (fun _ => rfl) (fun _ _ => rfl)
        (fun h => absurd h (by simp [hg])) (fun h => absurd h (by simp [hg]))
        (fun _ => rfl) (fun _ => rfl) (fun _ => rfl)
    · intro tc r0
      exact randProg_allows o tc r0 _ (fun _ => rfl) (fun _ _ => rfl)
        (fun h => absurd h (by simp [hg])) (fun h => absurd h (by simp [hg]))
        (fun _ => rfl) (fun _ => rfl) (fun _ => rfl) (fun _ => rfl) rfl
        (fun _ => rfl)
  · intro o oct tr alOk tm cps ha hg
    have hb := benchLoop_all o noAadTagEv (fun _ => rfl)
      (fun i => benchProg_allows o i _ (fun _ => rfl)
        (fun h => absurd h (by simp [ha])) (fun h => absurd h (by simp [hg]))
        (fun _ => rfl)) tr 0 oct SRTP_MAX_TAG_LEN ⟨0, 0, 0⟩
    rcases alOk with _ | _
    · rfl
    · rw [bench_trace]
      exact hb

/-- C10 witness: the gating facts applied at concrete environments — a
non-GCM self-test run produces no AEAD events, and a benchmark on a contract
lacking the optional operations produces none either. -/
theorem c10_witness :
    (srtp_cipher_type_test oAllOk [tc0]).2.2.all noAadTagEv = true ∧
    (srtp_cipher_bits_per_second oGcmNoAad 4 1 true 1 1).2.2.all noAadTagEv =
      true :=
  ⟨c10_aead_gating.1 oAllOk [tc0] rfl,
    c10_aead_gating.2.1 oGcmNoAad 4 1 true 1 1 rfl rfl⟩

/-- C7 counterexample: with zero trials, a successful scratch allocation, an
environment whose every contract call succeeds (no driven call runs at all —
the trace is empty) and a nonzero elapsed time of 5 ticks, the benchmark
returns 0, not the strictly positive value the claim asserts for every case
outside its three listed failure modes. -/
theorem c7_counterexample :
    (srtp_cipher_bits_per_second oAllOk 4 0 true 5 100).1 = 0 ∧
    (srtp_cipher_bits_per_second oAllOk 4 0 true 5 100).2.2 = [] ∧
    (5 : Nat) ≠ 0 :=
  ⟨by decide, by decide, by decide⟩

/-- C7 amended: the benchmark returns 0 when the scratch allocation fails,
when any driven `set_iv`/`set_aad`/`encrypt`/`get_tag` call during any trial
fails (the trial loop aborting, `benchLoop` result `false`, forces a 0
return), or when the elapsed time is zero; any nonzero result arises only
from a fully successful run (`benchLoop` result `true`) with nonzero elapsed
time and equals `CLOCKS_PER_SEC * trials * 8 * payload` reduced mod `2^64`
and divided by the elapsed ticks — which is therefore zero (even on success)
whenever that reduced product is below the elapsed ticks, e.g. for zero
trials or zero payload. -/
theorem c7_amended :
    (∀ (o : Oracle) (oct tr tm cps : Nat),
      srtp_cipher_bits_per_second o oct tr false tm cps =
        (0, (⟨0, 0, 0⟩ : St), ([] : List Ev))) ∧
    (∀ (o : Oracle) (oct tr : Nat) (alOk : Bool) (tm cps : Nat),
      (srtp_cipher_bits_per_second o oct tr alOk tm cps).1 ≠ 0 →
      alOk = true ∧
      (benchLoop o tr 0 oct SRTP_MAX_TAG_LEN ⟨0, 0, 0⟩).1 = true ∧ tm ≠ 0 ∧
      (srtp_cipher_bits_per_second o oct tr alOk tm cps).1 =
        cps * tr * 8 * oct % 2 ^ 64 / tm ∧
      0 < (srtp_cipher_bits_per_second o oct tr alOk tm cps).1) ∧
    (∀ (o : Oracle) (oct tr tm cps : Nat),
      (benchLoop o tr 0 oct SRTP_MAX_TAG_LEN ⟨0, 0, 0⟩).1 = false →
      (srtp_cipher_bits_per_second o oct tr true tm cps).1 = 0) ∧
    (∀ (o : Oracle) (oct tr tm cps : Nat),
      (∀ k, o.resp k = srtp_err_status_ok) →
      (srtp_cipher_bits_per_second o oct tr true tm cps).1 =
        if tm = 0 then 0 else cps * tr * 8 * oct % 2 ^ 64 / tm) ∧
    (∀ (oct tr tm cps : Nat), tm ≠ 0 →
      (0 < cps * tr * 8 * oct % 2 ^ 64 / tm ↔
        tm ≤ cps * tr * 8 * oct % 2 ^ 64)) := by
  refine ⟨?_, ?_, ?_, ?_, ?_⟩
  · intro o oct tr tm cps
    rfl
  · intro o oct tr alOk tm cps h
    rcases alOk with _ | _
    · exact absurd rfl h
    · rw [bench_spec] at h
      by_cases hbl :
          (benchLoop o tr 0 oct SRTP_MAX_TAG_LEN ⟨0, 0, 0⟩).1 = true
      · by_cases htm : tm = 0
        · simp [hbl, htm] at h
        · simp only [hbl, if_true, htm, if_false] at h
          refine ⟨rfl, hbl, htm, ?_, ?_⟩
          · rw [bench_spec]
            simp [hbl, htm]
          · rw [bench_spec]
            simp only [hbl, if_true, htm, if_false]
            exact Nat.pos_of_ne_zero (by simpa using h)
      · simp [hbl] at h
  · intro o oct tr tm cps hfail
    rw [bench_spec]
    simp [hfail]
  · intro o oct tr tm cps hok
    rw [bench_spec]
    simp [benchLoop_true o hok tr 0 oct SRTP_MAX_TAG_LEN ⟨0, 0, 0⟩]
  · intro oct tr tm cps htm
    exact Nat.div_pos_iff htm

/-- C7 witness: the amended characterization applied at concrete inputs — a
failed scratch allocation returns the zero triple, a run whose first driven
`set_iv` call fails returns 0 despite five elapsed ticks, and a fully
successful one-trial run yields the 64-bit throughput formula. -/
theorem c7_witness :
    srtp_cipher_bits_per_second oAllOk 4 0 false 5 100 =
      (0, (⟨0, 0, 0⟩ : St), ([] : List Ev)) ∧
    (srtp_cipher_bits_per_second oFail 4 1 true 5 100).1 = 0 ∧
    (srtp_cipher_bits_per_second oAllOk 4 1 true 1 100).1 =
      (if (1 : Nat) = 0 then 0 else 100 * 1 * 8 * 4 % 2 ^ 64 / 1) := by
  have h := c7_amended
  exact ⟨h.1 oAllOk 4 0 5 100, h.2.2.1 oFail 4 1 5 100 (by decide),
    h.2.2.2.1 oAllOk 4 1 1 100 (fun _ => rfl)⟩

end LibSrtpCipher
